import Mathlib

/-!
Shallow embedding of the QR Code Login System core
(src/users_dao.py, src/qr_db_logger.py, src/main.py).

The SQLite tables `Users` and `Logins` (users_dao.py lines 75-89) are
modelled as ordered lists of rows; statuses and timestamps are `Option
String` / `String` exactly as in the TEXT columns. Failures that the
Python code raises are modelled with explicit error values. External
collaborators (camera frames, pyzbar decoding, image writing, cv2
windows) are modelled as opaque inputs, as prescribed by section 6 of
the specification.
-/

/-- Row of the Users table (users_dao.py lines 75-81):
code TEXT PRIMARY KEY NOT NULL UNIQUE, firstName/lastName/email TEXT NOT
NULL, status TEXT nullable. -/
structure UserRow where
  code : String
  firstName : String
  lastName : String
  email : String
  status : Option String
deriving Repr, DecidableEq

/-- Row of the Logins table (users_dao.py lines 84-89):
timestamp TEXT PRIMARY KEY NOT NULL, logoutTime TEXT nullable,
userCode TEXT NOT NULL referencing Users(code). -/
structure LoginRow where
  timestamp : String
  logoutTime : Option String
  userCode : String
deriving Repr, DecidableEq

/-- Database state: the two tables, rows in insertion order. -/
structure DB where
  users : List UserRow
  logins : List LoginRow
deriving Repr, DecidableEq

/-- Users.get_info (users_dao.py lines 230-248): SELECT * FROM Users WHERE
code=? followed by fetchone, i.e. the first row with this code or None. -/
def get_info (db : DB) (code : String) : Option UserRow :=
  db.users.find? (fun u => u.code == code)

/-- Users.add_user (users_dao.py lines 155-184): INSERT OR IGNORE INTO
Users, so a row is appended only when no row with this primary key
exists; otherwise the statement is a no-op. The qr image generation
side effect is external and not part of the state. -/
def add_user (db : DB) (code firstName lastName email : String)
    (status : Option String) : DB :=
  if db.users.any (fun u => u.code == code) then db
  else { db with users := db.users ++ [⟨code, firstName, lastName, email, status⟩] }

/-- Users.get_whitelist (users_dao.py lines 250-266): SELECT code FROM
Users, returned as the array of codes in row order. (The numpy slicing
in the source presupposes a non-empty table, which holds in every run
because the constructor seeds two users.) -/
def get_whitelist (db : DB) : List String :=
  db.users.map (fun u => u.code)

/-- Users.login (users_dao.py lines 186-208): INSERT INTO
Logins(timestamp, userCode). `timestamp` is the primary key, so an
insert with an already present timestamp raises
(sqlite3.IntegrityError, turned into Exception by handle_sqlite_error,
users_dao.py lines 60-71) and writes nothing; otherwise the open row
(logoutTime NULL) is appended. -/
def login (db : DB) (timestamp userCode : String) : Except Unit DB :=
  if db.logins.any (fun r => r.timestamp == timestamp) then .error ()
  else .ok { db with logins := db.logins ++ [⟨timestamp, none, userCode⟩] }

/-- Users.logout (users_dao.py lines 210-228): UPDATE Logins SET
logoutTime = ? WHERE userCode = ? AND logoutTime IS NULL. Every
matching row is updated; when no row matches the statement silently
changes nothing and no error is raised. -/
def logout (db : DB) (userCode logoutTime : String) : DB :=
  { db with logins := db.logins.map (fun r =>
      if r.userCode = userCode ∧ r.logoutTime = none
      then { r with logoutTime := some logoutTime } else r) }

/-- Outcome of Users.set_status (users_dao.py lines 268-297). The method
returns the string Active or Inactive after committing the matching
UPDATE, returns None (after a print) when the stored status is some
other string, and raises an unhandled TypeError when get_info returns
None, because line 282 subscripts None. -/
inductive SetStatusOutcome where
  | returned (status : Option String) (db : DB)
  | typeError
deriving Repr, DecidableEq

/-- The UPDATE Users SET status=? WHERE code=? statements of
users_dao.py lines 284 and 290. -/
def updateStatus (db : DB) (code : String) (s : Option String) : DB :=
  { db with users := db.users.map (fun u =>
      if u.code = code then { u with status := s } else u) }

/-- Users.set_status (users_dao.py lines 268-297): reads the row, then
toggles. status Inactive or NULL goes to Active; status Active goes to
Inactive; any other stored string only prints and returns None; a
missing row crashes with TypeError before any write. -/
def set_status (db : DB) (code : String) : SetStatusOutcome :=
  match get_info db code with
  | none => .typeError
  | some u =>
    if u.status = some "Inactive" ∨ u.status = none then
      .returned (some "Active") (updateStatus db code (some "Active"))
    else if u.status = some "Active" then
      .returned (some "Inactive") (updateStatus db code (some "Inactive"))
    else
      .returned none db

/-- Opaque token standing for a camera frame (np.ndarray). -/
abbrev Frame := Nat

/-- The heterogeneous info list built by QrLogger.process_qr
(qr_db_logger.py lines 66-82): either just the frame, or the frame
followed by the decoded code and the time.time() timestamp. -/
inductive Info where
  | frameOnly (frame : Frame)
  | detection (frame : Frame) (code : String) (timestamp : String)
deriving Repr, DecidableEq

/-- QrLogger.process_qr (qr_db_logger.py lines 53-88). The external
pyzbar decode of the frame is an input here: zero or one payloads, per
section 6 of the specification. `recent` is the recent_accesses list
the Python code mutates in place; the second component of the result is
its new value. `ts` stands for the time.time() sample. A decoded code
is kept only when it is in the whitelist and (line 77) recent_accesses
is empty or its last element differs from the code; acceptance appends
the code to recent_accesses. -/
def process_qr (frame : Frame) (decoded : Option String)
    (whitelist : List String) (recent : List String) (ts : String) :
    Info × List String :=
  match decoded with
  | none => (.frameOnly frame, recent)
  | some data =>
    if data ∈ whitelist then
      if recent = [] ∨ recent.getLast? ≠ some data then
        (.detection frame data ts, recent ++ [data])
      else (.frameOnly frame, recent)
    else (.frameOnly frame, recent)

/-- Result of QrLogger.log_qr_activity: the frame handed back to the
video loop, or an exception propagating out of the method. -/
inductive LogResult where
  | ok (frame : Frame)
  | raised
deriving Repr, DecidableEq

/-- QrLogger.log_qr_activity (qr_db_logger.py lines 90-128). With a
detection it first runs set_status (line 112, committing the status
UPDATE on its own connection), then on the string Active inserts a
Logins row (line 118) and otherwise runs the logout UPDATE (line 125).
The returned database is the committed state at the moment control
leaves the method, so when the Logins insert raises, the already
committed status change is retained. The image annotation and window
side effects are external. -/
def log_qr_activity (db : DB) (info : Info) : LogResult × DB :=
  match info with
  | .frameOnly f => (.ok f, db)
  | .detection f code ts =>
    match set_status db code with
    | .typeError => (.raised, db)
    | .returned st db1 =>
      if st = some "Active" then
        match login db1 ts code with
        | .ok db2 => (.ok f, db2)
        | .error _ => (.raised, db1)
      else
        (.ok f, logout db1 code ts)

/-- One accepted observation of a code: log_qr_activity applied to a
detection, the presence state machine step of section 4.3. The frame
token is irrelevant to the database transition and fixed to 0. -/
def observe (db : DB) (code ts : String) : LogResult × DB :=
  log_qr_activity db (.detection 0 code ts)

/-- One full loop iteration on a frame (qr_db_logger.py line 189):
process_qr followed by log_qr_activity. Returns the loop result, the
new database and the new recent_accesses list. -/
def step (db : DB) (frame : Frame) (decoded : Option String)
    (whitelist : List String) (recent : List String) (ts : String) :
    LogResult × DB × List String :=
  let pr := process_qr frame decoded whitelist recent ts
  let lr := log_qr_activity db pr.1
  (lr.1, lr.2, pr.2)

/-- Number of open ledger entries (logoutTime NULL) for a code. -/
def openCount (db : DB) (code : String) : Nat :=
  db.logins.countP (fun r => r.userCode == code && r.logoutTime == none)

/-- Stored status of a code: none when no row exists, otherwise the
status column of the row. -/
def statusOf (db : DB) (code : String) : Option (Option String) :=
  (get_info db code).map (fun u => u.status)

/-- Whether an Info value is an accepted scan event (carries code and
timestamp, i.e. the Python list has length 3). -/
def accepted : Info → Bool
  | .frameOnly _ => false
  | .detection _ _ _ => true

/-- Run process_qr over a list of per-frame decode results starting
from a given recent_accesses list, counting accepted scan events. -/
def countAccepted (whitelist : List String) :
    List (Option String) → List String → Nat
  | [], _ => 0
  | d :: ds, recent =>
    let pr := process_qr 0 d whitelist recent "t"
    (if accepted pr.1 then 1 else 0) + countAccepted whitelist ds pr.2

/-- Database state after the seeding done by the Users constructor
(users_dao.py lines 111-112). -/
def seedDB : DB :=
  add_user (add_user ⟨[], []⟩ "h65ld310" "John" "Buck" "jbuck@gmail.com" none)
    "d08ae169" "Jane" "Doe" "jdoe@gmail.com" none

/-! ### Helper lemmas about the table operations -/

theorem logins_updateStatus (db : DB) (c : String) (s : Option String) :
    (updateStatus db c s).logins = db.logins := rfl

theorem users_logout (db : DB) (c t : String) :
    (logout db c t).users = db.users := rfl

theorem get_info_logout (db : DB) (c t x : String) :
    get_info (logout db c t) x = get_info db x := rfl

theorem openCount_updateStatus (db : DB) (c : String) (s : Option String) (x : String) :
    openCount (updateStatus db c s) x = openCount db x := rfl

theorem find?_map_update (l : List UserRow) (c x : String) (s : Option String) (h : x ≠ c) :
    (l.map (fun u => if u.code = c then { u with status := s } else u)).find?
        (fun u => u.code == x)
      = l.find? (fun u => u.code == x) := by
  induction l with
  | nil => rfl
  | cons u us ih =>
    simp only [List.map_cons]
    by_cases hc : u.code = c
    · rw [if_pos hc, List.find?_cons_of_neg _ (by simp [hc]; exact Ne.symm h),
        List.find?_cons_of_neg _ (by simp [hc]; exact Ne.symm h), ih]
    · rw [if_neg hc]
      by_cases hx : u.code = x
      · rw [List.find?_cons_of_pos _ (by simp [hx]), List.find?_cons_of_pos _ (by simp [hx])]
      · rw [List.find?_cons_of_neg _ (by simp [hx]), List.find?_cons_of_neg _ (by simp [hx]), ih]

theorem get_info_updateStatus_ne (db : DB) (c x : String) (s : Option String) (h : x ≠ c) :
    get_info (updateStatus db c s) x = get_info db x :=
  find?_map_update db.users c x s h

theorem find?_map_update_self (l : List UserRow) (c : String) (s : Option String) (u : UserRow)
    (hu : l.find? (fun v => v.code == c) = some u) :
    (l.map (fun v => if v.code = c then { v with status := s } else v)).find?
        (fun v => v.code == c) = some { u with status := s } := by
  induction l with
  | nil => simp at hu
  | cons v vs ih =>
    by_cases hv : v.code = c
    · rw [List.find?_cons_of_pos _ (by simp [hv])] at hu
      simp only [List.map_cons, if_pos hv]
      rw [List.find?_cons_of_pos _ (by simp [hv])]
      cases hu
      rfl
    · rw [List.find?_cons_of_neg _ (by simp [hv])] at hu
      simp only [List.map_cons, if_neg hv]
      rw [List.find?_cons_of_neg _ (by simp [hv])]
      exact ih hu

theorem get_info_updateStatus_self (db : DB) (c : String) (s : Option String) (u : UserRow)
    (hu : get_info db c = some u) :
    get_info (updateStatus db c s) c = some { u with status := s } :=
  find?_map_update_self db.users c s u hu

theorem get_info_add_user_fresh (db : DB) (code f l e : String) (s : Option String)
    (h : get_info db code = none) :
    get_info (add_user db code f l e s) code = some ⟨code, f, l, e, s⟩ := by
  unfold get_info at h
  have hg : ¬ db.users.any (fun u => u.code == code) = true := by
    rw [List.any_eq_true]
    rintro ⟨u, hu, hp⟩
    exact List.find?_eq_none.mp h u hu hp
  unfold add_user get_info
  rw [if_neg hg, List.find?_append, h]
  simp

theorem add_user_existing (db : DB) (code f l e : String) (s : Option String) (u : UserRow)
    (h : get_info db code = some u) : add_user db code f l e s = db := by
  unfold get_info at h
  have hp : (fun v : UserRow => v.code == code) u = true :=
    List.find?_some (p := fun v : UserRow => v.code == code) h
  have hg : db.users.any (fun v => v.code == code) = true :=
    List.any_eq_true.mpr ⟨u, List.mem_of_find?_eq_some h, hp⟩
  unfold add_user
  rw [if_pos hg]

theorem get_info_add_user_of_found (db : DB) (code f l e : String) (s : Option String)
    (x : String) (u : UserRow) (h : get_info db x = some u) :
    get_info (add_user db code f l e s) x = some u := by
  unfold add_user
  by_cases hg : db.users.any (fun v => v.code == code) = true
  · rw [if_pos hg]; exact h
  · rw [if_neg hg]
    unfold get_info at h ⊢
    rw [List.find?_append, h]
    rfl

theorem logins_add_user (db : DB) (code f l e : String) (s : Option String) :
    (add_user db code f l e s).logins = db.logins := by
  unfold add_user
  by_cases hg : db.users.any (fun v => v.code == code) = true
  · rw [if_pos hg]
  · rw [if_neg hg]

theorem openCount_add_user (db : DB) (code f l e : String) (s : Option String) (x : String) :
    openCount (add_user db code f l e s) x = openCount db x := by
  unfold openCount
  rw [logins_add_user]

theorem openCount_append_open (db : DB) (ts c x : String) :
    openCount { db with logins := db.logins ++ [⟨ts, none, c⟩] } x
      = openCount db x + (if c = x then 1 else 0) := by
  unfold openCount
  rw [List.countP_append]
  by_cases h : c = x <;> simp [List.countP_cons, h]

theorem openCount_logout_self (db : DB) (c t : String) :
    openCount (logout db c t) c = 0 := by
  unfold openCount logout
  simp only [List.countP_map]
  rw [List.countP_eq_zero]
  intro r _
  by_cases h : r.userCode = c ∧ r.logoutTime = none
  · simp [Function.comp, if_pos h]
  · simp only [Function.comp, if_neg h, Bool.and_eq_true, beq_iff_eq]
    rintro ⟨h1, h2⟩
    exact h ⟨h1, h2⟩

theorem openCount_logout_ne (db : DB) (c t x : String) (h : x ≠ c) :
    openCount (logout db c t) x = openCount db x := by
  unfold openCount logout
  simp only [List.countP_map]
  apply List.countP_congr
  intro r _
  by_cases hc : r.userCode = c ∧ r.logoutTime = none
  · have hx : (r.userCode == x) = false := by
      rw [beq_eq_false_iff_ne, hc.1]
      exact Ne.symm h
    simp [Function.comp, if_pos hc, hx]
  · simp [Function.comp, if_neg hc]

/-! ### Deduplicator lemmas -/

theorem countAccepted_suppressed (w : List String) (c : String) (m : Nat)
    (recent : List String) (hlast : recent.getLast? = some c) :
    countAccepted w (List.replicate m (some c)) recent = 0 := by
  induction m generalizing recent with
  | zero => rfl
  | succ k ih =>
    have hne : recent ≠ [] := by
      intro hnil
      rw [hnil] at hlast
      simp at hlast
    have hcond : ¬(recent = [] ∨ recent.getLast? ≠ some c) := by
      push_neg
      exact ⟨hne, hlast⟩
    rw [List.replicate_succ]
    by_cases hw : c ∈ w
    · simp only [countAccepted, process_qr, if_pos hw, if_neg hcond]
      simpa [accepted] using ih recent hlast
    · simp only [countAccepted, process_qr, if_neg hw]
      simpa [accepted] using ih recent hlast

/-- C5: for a whitelisted code, N consecutive frames each decoding to
that code with no absence in between produce exactly one accepted scan
event (N at least 1): the first frame is accepted, each later frame is
suppressed because recent_accesses still ends in the same code
(qr_db_logger.py line 77). -/
theorem C5_consecutive_frames_one_event (w : List String) (c : String)
    (recent : List String) (n : Nat) (hw : c ∈ w)
    (hlast : recent.getLast? ≠ some c) (hn : 1 ≤ n) :
    countAccepted w (List.replicate n (some c)) recent = 1 := by
  obtain ⟨m, rfl⟩ : ∃ m, n = m + 1 := ⟨n - 1, by omega⟩
  rw [List.replicate_succ]
  have hcond : recent = [] ∨ recent.getLast? ≠ some c := Or.inr hlast
  simp only [countAccepted, process_qr, if_pos hw, if_pos hcond]
  simp only [accepted, if_pos]
  rw [countAccepted_suppressed w c m (recent ++ [c]) (List.getLast?_concat recent)]

/-- Witness for C5 at a concrete input: three frames of code a on an
empty recent_accesses list give one accepted event. -/
theorem C5_witness :
    ("a" ∈ (["a", "b"] : List String))
    ∧ (([] : List String).getLast? ≠ some "a")
    ∧ 1 ≤ 3
    ∧ countAccepted ["a", "b"] (List.replicate 3 (some "a")) [] = 1 :=
  ⟨by decide, by decide, by decide,
    C5_consecutive_frames_one_event ["a", "b"] "a" [] 3 (by decide) (by decide) (by decide)⟩

/-- C4: the claim asserts that one frame with no decodable code resets
the deduplicator, so presenting a whitelisted code, removing it for one
frame and presenting it again yields two accepted events. The code has
no absence handling: a frame with no decode leaves recent_accesses
untouched (qr_db_logger.py lines 69-83), so the second presentation is
still suppressed. Evaluating the scanner at that failing input yields
one accepted event, not two. -/
theorem C4_absence_does_not_reset :
    countAccepted ["h65ld310"] [some "h65ld310", none, some "h65ld310"] [] = 1 := by
  decide

/-- C7: a frame decoding to a code that is not whitelisted creates no
ledger entry, changes no user status, leaves the deduplication memory
unchanged and returns the frame unchanged: process_qr drops the code
(qr_db_logger.py line 75) and log_qr_activity on a one-element info
list only returns the frame (qr_db_logger.py lines 103, 128). -/
theorem C7_unknown_code_no_effect (db : DB) (frame : Frame) (c ts : String)
    (w recent : List String) (hc : c ∉ w) :
    step db frame (some c) w recent ts = (.ok frame, db, recent) := by
  simp only [step, process_qr]
  rw [if_neg hc]
  rfl

/-- Witness for C7 at a concrete input: scanning the unrecognized code
unknownQR against the seeded database leaves everything unchanged. -/
theorem C7_witness :
    ("unknownQR" ∉ get_whitelist seedDB)
    ∧ step seedDB 7 (some "unknownQR") (get_whitelist seedDB) [] "t1" = (.ok 7, seedDB, []) :=
  ⟨by decide, C7_unknown_code_no_effect seedDB 7 "unknownQR" "t1" (get_whitelist seedDB) [] (by decide)⟩

/-- C8: adding a user with a fresh code and reading it back returns
exactly the fields supplied; re-adding an existing code leaves the
stored record unchanged (INSERT OR IGNORE, users_dao.py line 172); and
the whitelist after adding two users with distinct codes to an empty
directory contains exactly those two codes. -/
theorem C8_roundtrip (db : DB) (code f l e : String) (s : Option String)
    (f9 l9 e9 : String) (s9 : Option String)
    (c1 f1 l1 e1 : String) (s1 : Option String) (c2 f2 l2 e2 : String) (s2 : Option String)
    (hfresh : get_info db code = none) (hne : c1 ≠ c2) :
    get_info (add_user db code f l e s) code = some ⟨code, f, l, e, s⟩
    ∧ add_user (add_user db code f l e s) code f9 l9 e9 s9 = add_user db code f l e s
    ∧ get_whitelist (add_user (add_user ⟨[], []⟩ c1 f1 l1 e1 s1) c2 f2 l2 e2 s2) = [c1, c2] := by
  have h1 := get_info_add_user_fresh db code f l e s hfresh
  refine ⟨h1, add_user_existing _ code f9 l9 e9 s9 _ h1, ?_⟩
  have step1 : add_user ⟨[], []⟩ c1 f1 l1 e1 s1 = ⟨[⟨c1, f1, l1, e1, s1⟩], []⟩ := by
    unfold add_user
    simp
  rw [step1]
  have hg : ¬ (([(⟨c1, f1, l1, e1, s1⟩ : UserRow)] : List UserRow).any
      (fun u => u.code == c2) = true) := by
    simp [hne]
  unfold add_user
  rw [if_neg hg]
  rfl

/-- Witness for C8 at concrete inputs: the two seed users of the
directory. -/
theorem C8_witness :
    get_info (add_user ⟨[], []⟩ "h65ld310" "John" "Buck" "jbuck@gmail.com" none) "h65ld310"
      = some ⟨"h65ld310", "John", "Buck", "jbuck@gmail.com", none⟩
    ∧ add_user (add_user ⟨[], []⟩ "h65ld310" "John" "Buck" "jbuck@gmail.com" none)
        "h65ld310" "J" "B" "x" (some "Active")
      = add_user ⟨[], []⟩ "h65ld310" "John" "Buck" "jbuck@gmail.com" none
    ∧ get_whitelist (add_user (add_user ⟨[], []⟩ "h65ld310" "John" "Buck" "jbuck@gmail.com" none)
        "d08ae169" "Jane" "Doe" "jdoe@gmail.com" none) = ["h65ld310", "d08ae169"] :=
  C8_roundtrip ⟨[], []⟩ "h65ld310" "John" "Buck" "jbuck@gmail.com" none "J" "B" "x" (some "Active")
    "h65ld310" "John" "Buck" "jbuck@gmail.com" none "d08ae169" "Jane" "Doe" "jdoe@gmail.com" none
    (by decide) (by decide)

/-! ### Characterization of one observation -/

theorem countP_open_append (l : List LoginRow) (ts c x : String) :
    (l ++ [(⟨ts, none, c⟩ : LoginRow)]).countP (fun r => r.userCode == x && r.logoutTime == none)
      = l.countP (fun r => r.userCode == x && r.logoutTime == none)
        + (if c = x then 1 else 0) := by
  rw [List.countP_append]
  by_cases h : c = x <;> simp [h]

theorem observe_not_found (db : DB) (code ts : String) (h : get_info db code = none) :
    observe db code ts = (.raised, db) := by
  simp only [observe, log_qr_activity, set_status, h]

/-- Database state after a successful login transition: status written
to Active and one open row appended to Logins. -/
def afterLoginOk (db : DB) (code ts : String) : DB :=
  { users := (updateStatus db code (some "Active")).users
    logins := db.logins ++ [⟨ts, none, code⟩] }

theorem observe_login_ok (db : DB) (code ts : String) (u : UserRow)
    (hu : get_info db code = some u) (hst : u.status = some "Inactive" ∨ u.status = none)
    (hfresh : ∀ r ∈ db.logins, r.timestamp ≠ ts) :
    observe db code ts = (.ok 0, afterLoginOk db code ts) := by
  simp only [observe, log_qr_activity, set_status, hu]
  rw [if_pos hst]
  have hany : (updateStatus db code (some "Active")).logins.any
      (fun r => r.timestamp == ts) = false := by
    rw [logins_updateStatus, List.any_eq_false]
    intro r hr
    simp [hfresh r hr]
  simp only [login, hany]
  rfl

theorem observe_login_dup (db : DB) (code ts : String) (u : UserRow)
    (hu : get_info db code = some u) (hst : u.status = some "Inactive" ∨ u.status = none)
    (hdup : ∃ r ∈ db.logins, r.timestamp = ts) :
    observe db code ts = (.raised, updateStatus db code (some "Active")) := by
  simp only [observe, log_qr_activity, set_status, hu]
  rw [if_pos hst]
  have hany : (updateStatus db code (some "Active")).logins.any
      (fun r => r.timestamp == ts) = true := by
    rw [logins_updateStatus, List.any_eq_true]
    obtain ⟨r, hr, he⟩ := hdup
    exact ⟨r, hr, by simp [he]⟩
  simp only [login, hany]
  rfl

theorem observe_logout (db : DB) (code ts : String) (u : UserRow)
    (hu : get_info db code = some u) (hst : u.status = some "Active") :
    observe db code ts = (.ok 0, logout (updateStatus db code (some "Inactive")) code ts) := by
  have hn1 : ¬(u.status = some "Inactive" ∨ u.status = none) := by simp [hst]
  simp only [observe, log_qr_activity, set_status, hu]
  rw [if_neg hn1, if_pos hst]
  rfl

theorem observe_other_status (db : DB) (code ts : String) (u : UserRow)
    (hu : get_info db code = some u) (h1 : ¬(u.status = some "Inactive" ∨ u.status = none))
    (h2 : ¬ u.status = some "Active") :
    observe db code ts = (.ok 0, logout db code ts) := by
  simp only [observe, log_qr_activity, set_status, hu]
  rw [if_neg h1, if_neg h2]
  rfl

/-! ### Reachability and the ledger coherence invariant -/

/-- Database states reachable through the operations the system itself
performs: the empty state, user creation as performed at every call
site in the repository (users_dao.py lines 111-112 pass status None),
and scan processing via log_qr_activity (qr_db_logger.py line 189).
After a scan the committed state is kept whether or not the call
raised. -/
inductive Reachable : DB → Prop where
  | start : Reachable ⟨[], []⟩
  | seed (db : DB) (code f l e : String) : Reachable db →
      Reachable (add_user db code f l e none)
  | scan (db : DB) (code ts : String) : Reachable db →
      Reachable (observe db code ts).2

/-- Coherence invariant tying ledger to directory: every code has at
most one open ledger entry, and an open entry exists only while the
stored status is the string Active. -/
def StrongInv (db : DB) : Prop :=
  ∀ code : String, openCount db code ≤ 1 ∧
    (1 ≤ openCount db code → statusOf db code = some (some "Active"))

theorem StrongInv_add_user (db : DB) (code f l e : String) (s : Option String)
    (h : StrongInv db) : StrongInv (add_user db code f l e s) := by
  intro x
  rw [openCount_add_user]
  refine ⟨(h x).1, fun hx => ?_⟩
  have hs := (h x).2 hx
  unfold statusOf at hs ⊢
  cases hug : get_info db x with
  | none => rw [hug] at hs; simp at hs
  | some u =>
    rw [hug] at hs
    rw [get_info_add_user_of_found db code f l e s x u hug]
    exact hs

theorem StrongInv_observe (db : DB) (code ts : String) (h : StrongInv db) :
    StrongInv (observe db code ts).2 := by
  cases hu : get_info db code with
  | none =>
    rw [observe_not_found db code ts hu]
    exact h
  | some u =>
    by_cases hst1 : u.status = some "Inactive" ∨ u.status = none
    · have h0 : openCount db code = 0 := by
        by_contra hne
        have h1 : 1 ≤ openCount db code := Nat.one_le_iff_ne_zero.mpr hne
        have hs := (h code).2 h1
        unfold statusOf at hs
        rw [hu] at hs
        simp only [Option.map_some'] at hs
        have hs2 : u.status = some "Active" := Option.some.inj hs
        rcases hst1 with hh | hh <;> rw [hh] at hs2
        · exact absurd hs2 (by decide)
        · exact Option.noConfusion hs2
      by_cases hfresh : ∀ r ∈ db.logins, r.timestamp ≠ ts
      · rw [observe_login_ok db code ts u hu hst1 hfresh]
        intro x
        have hoc : openCount (afterLoginOk db code ts) x
            = openCount db x + (if code = x then 1 else 0) := by
          unfold openCount afterLoginOk
          exact countP_open_append db.logins ts code x
        have hgi : get_info (afterLoginOk db code ts) x
            = get_info (updateStatus db code (some "Active")) x := rfl
        by_cases hx : code = x
        · subst hx
          rw [hoc, h0, if_pos rfl]
          refine ⟨by omega, fun _ => ?_⟩
          unfold statusOf
          rw [hgi, get_info_updateStatus_self db code (some "Active") u hu]
          rfl
        · rw [hoc, if_neg hx, Nat.add_zero]
          refine ⟨(h x).1, fun h1 => ?_⟩
          have hs := (h x).2 h1
          unfold statusOf at hs ⊢
          rw [hgi, get_info_updateStatus_ne db code x (some "Active") (fun hh => hx hh.symm)]
          exact hs
      · push_neg at hfresh
        rw [observe_login_dup db code ts u hu hst1 hfresh]
        intro x
        rw [openCount_updateStatus]
        refine ⟨(h x).1, fun h1 => ?_⟩
        by_cases hx : x = code
        · subst hx
          unfold statusOf
          rw [get_info_updateStatus_self db x (some "Active") u hu]
          rfl
        · unfold statusOf
          rw [get_info_updateStatus_ne db code x (some "Active") hx]
          exact (h x).2 h1
    · by_cases hst2 : u.status = some "Active"
      · rw [observe_logout db code ts u hu hst2]
        intro x
        by_cases hx : x = code
        · subst hx
          rw [openCount_logout_self]
          exact ⟨by omega, fun h1 => absurd h1 (by omega)⟩
        · rw [openCount_logout_ne _ _ _ _ hx, openCount_updateStatus]
          refine ⟨(h x).1, fun h1 => ?_⟩
          unfold statusOf
          rw [get_info_logout, get_info_updateStatus_ne db code x (some "Inactive") hx]
          exact (h x).2 h1
      · rw [observe_other_status db code ts u hu hst1 hst2]
        intro x
        by_cases hx : x = code
        · subst hx
          rw [openCount_logout_self]
          exact ⟨by omega, fun h1 => absurd h1 (by omega)⟩
        · rw [openCount_logout_ne _ _ _ _ hx]
          refine ⟨(h x).1, fun h1 => ?_⟩
          unfold statusOf
          rw [get_info_logout]
          exact (h x).2 h1

theorem reachable_strongInv (db : DB) (h : Reachable db) : StrongInv db := by
  induction h with
  | start =>
    intro x
    have h0 : openCount ⟨[], []⟩ x = 0 := rfl
    rw [h0]
    exact ⟨by omega, fun h1 => absurd h1 (by omega)⟩
  | seed db code f l e _ ih => exact StrongInv_add_user db code f l e none ih
  | scan db code ts _ ih => exact StrongInv_observe db code ts ih

/-- C2 (amended): at every state reachable through the operations of
the system itself, every code has at most one open ledger entry. The
state machine maintains the invariant; the raw ledger insert alone does
not guard it (see the counterexample), so the clause of the claim that
every directory and ledger operation preserves the invariant is
dropped. -/
theorem C2_at_most_one_open (db : DB) (code : String) (h : Reachable db) :
    openCount db code ≤ 1 :=
  (reachable_strongInv db h code).1

/-- Counterexample for C2 as stated: from a state that satisfies the
invariant (one open entry for code c), the ledger operation login with
a fresh timestamp succeeds and leaves two open entries for c, so it is
not the case that every operation of the directory, ledger and state
machine preserves the invariant. -/
theorem C2_counterexample :
    login ⟨[⟨"c", "F", "L", "E", some "Active"⟩], [⟨"t1", none, "c"⟩]⟩ "t2" "c"
      = Except.ok ⟨[⟨"c", "F", "L", "E", some "Active"⟩],
          [⟨"t1", none, "c"⟩, ⟨"t2", none, "c"⟩]⟩
    ∧ openCount ⟨[⟨"c", "F", "L", "E", some "Active"⟩],
          [⟨"t1", none, "c"⟩, ⟨"t2", none, "c"⟩]⟩ "c" = 2 := by
  exact ⟨by rfl, by decide⟩

/-- Witness for C2 at a concrete reachable state: seed one user, then
one accepted scan of that code. -/
theorem C2_witness :
    openCount (observe (add_user ⟨[], []⟩ "h65ld310" "John" "Buck" "jbuck@gmail.com" none)
      "h65ld310" "t1").2 "h65ld310" ≤ 1 :=
  C2_at_most_one_open _ "h65ld310"
    (Reachable.scan _ "h65ld310" "t1"
      (Reachable.seed _ "h65ld310" "John" "Buck" "jbuck@gmail.com" Reachable.start))

theorem status_mem_updateStatus (db : DB) (code : String) (s : Option String) (u : UserRow)
    (hmem : u ∈ (updateStatus db code s).users) :
    u.status = s ∨ u ∈ db.users := by
  unfold updateStatus at hmem
  simp only [List.mem_map] at hmem
  obtain ⟨v, hv, heq⟩ := hmem
  by_cases hc : v.code = code
  · rw [if_pos hc] at heq
    subst heq
    left
    rfl
  · rw [if_neg hc] at heq
    subst heq
    right
    exact hv

/-- C10: at every state reachable through the operations the system
performs, every stored user status is NULL, Active or Inactive: users
are created with status None at every call site (users_dao.py lines
111-112) and set_status only ever writes the strings Active and
Inactive (users_dao.py lines 284 and 290). -/
theorem C10_status_range (db : DB) (h : Reachable db) :
    ∀ u ∈ db.users, u.status = none ∨ u.status = some "Active" ∨ u.status = some "Inactive" := by
  induction h with
  | start =>
    intro u hu
    simp at hu
  | seed db code f l e _ ih =>
    intro u hu
    unfold add_user at hu
    by_cases hg : db.users.any (fun v => v.code == code) = true
    · rw [if_pos hg] at hu
      exact ih u hu
    · rw [if_neg hg] at hu
      rcases List.mem_append.mp hu with h1 | h1
      · exact ih u h1
      · simp only [List.mem_singleton] at h1
        subst h1
        left
        rfl
  | scan db code ts _ ih =>
    cases hgi : get_info db code with
    | none =>
      rw [observe_not_found db code ts hgi]
      exact ih
    | some v =>
      by_cases hst1 : v.status = some "Inactive" ∨ v.status = none
      · by_cases hfresh : ∀ r ∈ db.logins, r.timestamp ≠ ts
        · rw [observe_login_ok db code ts v hgi hst1 hfresh]
          intro u hmem
          rcases status_mem_updateStatus db code (some "Active") u hmem with h1 | h1
          · right; left; exact h1
          · exact ih u h1
        · push_neg at hfresh
          rw [observe_login_dup db code ts v hgi hst1 hfresh]
          intro u hmem
          rcases status_mem_updateStatus db code (some "Active") u hmem with h1 | h1
          · right; left; exact h1
          · exact ih u h1
      · by_cases hst2 : v.status = some "Active"
        · rw [observe_logout db code ts v hgi hst2]
          intro u hmem
          rw [users_logout] at hmem
          rcases status_mem_updateStatus db code (some "Inactive") u hmem with h1 | h1
          · right; right; exact h1
          · exact ih u h1
        · rw [observe_other_status db code ts v hgi hst1 hst2]
          intro u hmem
          rw [users_logout] at hmem
          exact ih u hmem

/-- Witness for C10: the first seeded user of the concrete seeded
database has a status in the allowed range. -/
theorem C10_witness :
    (⟨"h65ld310", "John", "Buck", "jbuck@gmail.com", none⟩ : UserRow).status = none
    ∨ (⟨"h65ld310", "John", "Buck", "jbuck@gmail.com", none⟩ : UserRow).status = some "Active"
    ∨ (⟨"h65ld310", "John", "Buck", "jbuck@gmail.com", none⟩ : UserRow).status = some "Inactive" :=
  C10_status_range seedDB
    (Reachable.seed _ "d08ae169" "Jane" "Doe" "jdoe@gmail.com"
      (Reachable.seed _ "h65ld310" "John" "Buck" "jbuck@gmail.com" Reachable.start))
    ⟨"h65ld310", "John", "Buck", "jbuck@gmail.com", none⟩ (by decide)

/-! ### State machine toggle, atomicity, logout and set_status claims -/

/-- Directory holding just the first seeded user with unset status and
an empty ledger. -/
def oneUserDB : DB := ⟨[⟨"h65ld310", "John", "Buck", "jbuck@gmail.com", none⟩], []⟩

theorem map_close_of_none_open (l : List LoginRow) (c t : String)
    (h : l.countP (fun r => r.userCode == c && r.logoutTime == none) = 0) :
    l.map (fun r => if r.userCode = c ∧ r.logoutTime = none
        then { r with logoutTime := some t } else r) = l := by
  have h9 := List.countP_eq_zero.mp h
  have h8 : l.map (fun r => if r.userCode = c ∧ r.logoutTime = none
      then { r with logoutTime := some t } else r) = l.map id := by
    apply List.map_congr_left
    intro r hr
    have hcond : ¬(r.userCode = c ∧ r.logoutTime = none) := by
      intro hc
      exact h9 r hr (by simp [hc.1, hc.2])
    rw [if_neg hcond]
    rfl
  rw [h8, List.map_id]

/-- C1: for a whitelisted code with current status unset or Inactive, an
accepted observation sets the status to Active and appends exactly one
open ledger row (a login event); a second accepted observation of the
same code then sets the status to Inactive and closes that same row by
writing its logout time, without creating any new row. -/
theorem C1_toggle_cycle (db : DB) (c ts1 ts2 : String) (u : UserRow)
    (hu : get_info db c = some u)
    (hst : u.status = none ∨ u.status = some "Inactive")
    (hopen : openCount db c = 0)
    (hfresh : ∀ r ∈ db.logins, r.timestamp ≠ ts1) :
    observe db c ts1 = (.ok 0, afterLoginOk db c ts1)
    ∧ statusOf (afterLoginOk db c ts1) c = some (some "Active")
    ∧ (afterLoginOk db c ts1).logins = db.logins ++ [⟨ts1, none, c⟩]
    ∧ openCount (afterLoginOk db c ts1) c = 1
    ∧ (observe (afterLoginOk db c ts1) c ts2).1 = .ok 0
    ∧ statusOf (observe (afterLoginOk db c ts1) c ts2).2 c = some (some "Inactive")
    ∧ (observe (afterLoginOk db c ts1) c ts2).2.logins = db.logins ++ [⟨ts1, some ts2, c⟩] := by
  have hst9 : u.status = some "Inactive" ∨ u.status = none := Or.symm hst
  have h1 := observe_login_ok db c ts1 u hu hst9 hfresh
  have hgi1 : get_info (afterLoginOk db c ts1) c = some { u with status := some "Active" } := by
    have he : get_info (afterLoginOk db c ts1) c
        = get_info (updateStatus db c (some "Active")) c := rfl
    rw [he, get_info_updateStatus_self db c (some "Active") u hu]
  have hstatus1 : statusOf (afterLoginOk db c ts1) c = some (some "Active") := by
    unfold statusOf
    rw [hgi1]
    rfl
  have hoc1 : openCount (afterLoginOk db c ts1) c = 1 := by
    show (db.logins ++ [(⟨ts1, none, c⟩ : LoginRow)]).countP
        (fun r => r.userCode == c && r.logoutTime == none) = 1
    rw [countP_open_append, if_pos rfl]
    have h0 : db.logins.countP (fun r => r.userCode == c && r.logoutTime == none) = 0 := hopen
    omega
  have h2 := observe_logout (afterLoginOk db c ts1) c ts2
    { u with status := some "Active" } hgi1 rfl
  have hlog2 : (logout (updateStatus (afterLoginOk db c ts1) c (some "Inactive")) c ts2).logins
      = db.logins ++ [⟨ts1, some ts2, c⟩] := by
    show (db.logins ++ [(⟨ts1, none, c⟩ : LoginRow)]).map
        (fun r => if r.userCode = c ∧ r.logoutTime = none
          then { r with logoutTime := some ts2 } else r)
      = db.logins ++ [⟨ts1, some ts2, c⟩]
    rw [List.map_append, map_close_of_none_open db.logins c ts2 hopen]
    simp
  have hstatus2 :
      statusOf (logout (updateStatus (afterLoginOk db c ts1) c (some "Inactive")) c ts2) c
        = some (some "Inactive") := by
    unfold statusOf
    rw [get_info_logout,
      get_info_updateStatus_self (afterLoginOk db c ts1) c (some "Inactive") _ hgi1]
    rfl
  refine ⟨h1, hstatus1, rfl, hoc1, ?_, ?_, ?_⟩
  · rw [h2]
  · rw [h2]
    exact hstatus2
  · rw [h2]
    exact hlog2

/-- Witness for C1 at a concrete input: the seeded user h65ld310
scanned twice from the unset state. -/
theorem C1_witness :
    observe oneUserDB "h65ld310" "t1" = (.ok 0, afterLoginOk oneUserDB "h65ld310" "t1")
    ∧ statusOf (afterLoginOk oneUserDB "h65ld310" "t1") "h65ld310" = some (some "Active")
    ∧ (afterLoginOk oneUserDB "h65ld310" "t1").logins
        = oneUserDB.logins ++ [⟨"t1", none, "h65ld310"⟩]
    ∧ openCount (afterLoginOk oneUserDB "h65ld310" "t1") "h65ld310" = 1
    ∧ (observe (afterLoginOk oneUserDB "h65ld310" "t1") "h65ld310" "t2").1 = .ok 0
    ∧ statusOf (observe (afterLoginOk oneUserDB "h65ld310" "t1") "h65ld310" "t2").2 "h65ld310"
        = some (some "Inactive")
    ∧ (observe (afterLoginOk oneUserDB "h65ld310" "t1") "h65ld310" "t2").2.logins
        = oneUserDB.logins ++ [⟨"t1", some "t2", "h65ld310"⟩] :=
  C1_toggle_cycle oneUserDB "h65ld310" "t1" "t2"
    ⟨"h65ld310", "John", "Buck", "jbuck@gmail.com", none⟩
    (by rfl) (Or.inl rfl) (by rfl) (by decide)

/-- C3 (amended): for a user whose status is unset or Inactive, when the
ledger insert succeeds both the status write and the ledger append take
effect; but when the ledger insert fails (duplicate timestamp key) the
call raises and the already committed status write is retained with no
matching ledger change: the two writes are separate transactions, not
one logical unit. -/
theorem C3_no_atomicity (db : DB) (c ts : String) (u : UserRow)
    (hu : get_info db c = some u)
    (hst : u.status = none ∨ u.status = some "Inactive") :
    ((∀ r ∈ db.logins, r.timestamp ≠ ts) →
        observe db c ts = (.ok 0, afterLoginOk db c ts))
    ∧ ((∃ r ∈ db.logins, r.timestamp = ts) →
        observe db c ts = (.raised, updateStatus db c (some "Active"))
        ∧ (updateStatus db c (some "Active")).logins = db.logins
        ∧ statusOf (updateStatus db c (some "Active")) c = some (some "Active")) := by
  have hst9 : u.status = some "Inactive" ∨ u.status = none := Or.symm hst
  refine ⟨fun hfresh => observe_login_ok db c ts u hu hst9 hfresh, fun hdup => ?_⟩
  refine ⟨observe_login_dup db c ts u hu hst9 hdup, rfl, ?_⟩
  unfold statusOf
  rw [get_info_updateStatus_self db c (some "Active") u hu]
  rfl

/-- Counterexample for C3 as stated: with user h65ld310 unset and the
ledger already holding primary key t1, the scan raises on the ledger
insert, yet the committed status write remains: the user ends up Active
with no open ledger entry for it, so partial state is retained instead
of both writes failing together. -/
theorem C3_counterexample :
    observe ⟨[⟨"h65ld310", "John", "Buck", "jbuck@gmail.com", none⟩],
        [⟨"t1", some "t0", "d08ae169"⟩]⟩ "h65ld310" "t1"
      = (.raised, ⟨[⟨"h65ld310", "John", "Buck", "jbuck@gmail.com", some "Active"⟩],
          [⟨"t1", some "t0", "d08ae169"⟩]⟩)
    ∧ openCount ⟨[⟨"h65ld310", "John", "Buck", "jbuck@gmail.com", some "Active"⟩],
        [⟨"t1", some "t0", "d08ae169"⟩]⟩ "h65ld310" = 0 :=
  ⟨by rfl, by decide⟩

/-- Witness for C3 at a concrete input: on the seeded single-user
directory with an empty ledger, the scan succeeds and both writes take
effect. -/
theorem C3_witness :
    observe oneUserDB "h65ld310" "t1" = (.ok 0, afterLoginOk oneUserDB "h65ld310" "t1") :=
  (C3_no_atomicity oneUserDB "h65ld310" "t1"
      ⟨"h65ld310", "John", "Buck", "jbuck@gmail.com", none⟩
      (by rfl) (Or.inl rfl)).1 (by decide)

/-- C6 (amended): logout closes every open ledger entry of the given
code by writing its logout timestamp (after it none remains open),
never adds or removes rows, and when no open entry exists it silently
returns the state unchanged: the code has no NoOpenSessionError or any
other failure path (users_dao.py lines 210-228). -/
theorem C6_logout_behavior (db : DB) (c t : String) :
    openCount (logout db c t) c = 0
    ∧ (logout db c t).logins.length = db.logins.length
    ∧ (openCount db c = 0 → logout db c t = db) := by
  refine ⟨openCount_logout_self db c t, ?_, fun h0 => ?_⟩
  · show (db.logins.map _).length = _
    rw [List.length_map]
  · unfold logout
    rw [map_close_of_none_open db.logins c t h0]

/-- Counterexample for C6 as stated: when the only ledger entry for the
code is already closed, logout returns normally with the state
unchanged rather than failing with a NoOpenSessionError; the source has
no such error path. -/
theorem C6_counterexample :
    logout ⟨[⟨"h65ld310", "John", "Buck", "jbuck@gmail.com", some "Inactive"⟩],
        [⟨"t1", some "t2", "h65ld310"⟩]⟩ "h65ld310" "t9"
      = ⟨[⟨"h65ld310", "John", "Buck", "jbuck@gmail.com", some "Inactive"⟩],
          [⟨"t1", some "t2", "h65ld310"⟩]⟩ := by
  rfl

/-- Witness for C6 at a concrete input. -/
theorem C6_witness :
    openCount (logout oneUserDB "h65ld310" "t9") "h65ld310" = 0 :=
  (C6_logout_behavior oneUserDB "h65ld310" "t9").1

/-- C9 (amended): for a code present in the directory with status
unset, Active or Inactive, set_status overwrites the stored status with
the toggled value and returns it; for an absent code it crashes with
the unhandled TypeError of users_dao.py line 282 rather than failing
with a recognized NotFoundError. -/
theorem C9_set_status_behavior (db : DB) (code : String) :
    (get_info db code = none → set_status db code = SetStatusOutcome.typeError)
    ∧ (∀ u : UserRow, get_info db code = some u →
        u.status = none ∨ u.status = some "Inactive" →
        set_status db code
          = SetStatusOutcome.returned (some "Active") (updateStatus db code (some "Active")))
    ∧ (∀ u : UserRow, get_info db code = some u → u.status = some "Active" →
        set_status db code
          = SetStatusOutcome.returned (some "Inactive") (updateStatus db code (some "Inactive"))) := by
  refine ⟨fun h => ?_, fun u hu hst => ?_, fun u hu hst => ?_⟩
  · simp only [set_status, h]
  · simp only [set_status, hu]
    rw [if_pos (Or.symm hst)]
  · have hn : ¬(u.status = some "Inactive" ∨ u.status = none) := by
      rw [hst]
      decide
    simp only [set_status, hu]
    rw [if_neg hn, if_pos hst]

/-- Counterexample for C9 as stated: set_status on a code absent from
the directory does not fail with a recognized NotFoundError (the code
has no such error); it crashes with the unhandled TypeError raised at
users_dao.py line 282 when the None returned by get_info is
subscripted, modelled by the typeError outcome. -/
theorem C9_counterexample :
    set_status oneUserDB "unknownQR" = SetStatusOutcome.typeError := by
  rfl

/-- Witness for C9 at a concrete input: the seeded user with unset
status is toggled to Active. -/
theorem C9_witness :
    set_status oneUserDB "h65ld310"
      = SetStatusOutcome.returned (some "Active")
          (updateStatus oneUserDB "h65ld310" (some "Active")) :=
  (C9_set_status_behavior oneUserDB "h65ld310").2.1
    ⟨"h65ld310", "John", "Buck", "jbuck@gmail.com", none⟩ (by rfl) (Or.inl rfl)
